import Mathlib

/-!
Verification of the aws-init repository: the environment resolution
pipeline (resolveSecrets), the reference resolver (resolveSecret,
getSecret, getParameter) and the process supervisor (execute,
handleSignals).  Go strings are modelled as lists of characters; the
string primitives used by the source (strings.Contains,
strings.HasPrefix, strings.TrimPrefix, strings.Cut, strings.SplitN)
are defined below with their Go semantics.  AWS clients, the Go
context and the stdlib JSON decoder are external collaborators and are
modelled as oracle parameters.
-/

namespace AwsInit

/-- Go string contents. -/
abbrev GoStr := List Char

/-- Go strings.HasPrefix: hasPrefixG s pre is true when pre is a
leading segment of s. -/
def hasPrefixG : GoStr → GoStr → Bool
  | _, [] => true
  | [], _ :: _ => false
  | c :: s, p :: ps => if c = p then hasPrefixG s ps else false

/-- Go strings.Contains: containsG s sub is true when sub occurs as a
contiguous segment of s. -/
def containsG : GoStr → GoStr → Bool
  | [], sub => hasPrefixG [] sub
  | c :: rest, sub => hasPrefixG (c :: rest) sub || containsG rest sub

/-- Go strings.TrimPrefix: remove pre from the front of s when
present, otherwise return s unchanged. -/
def trimPrefixG (s pre : GoStr) : GoStr :=
  if hasPrefixG s pre then s.drop pre.length else s

/-- Go strings.Cut(e, sep) for the one-character separator used by the
source: split at the first occurrence, returning none when the
separator does not occur. -/
def cutG (sep : Char) : GoStr → Option (GoStr × GoStr)
  | [] => none
  | c :: rest =>
    if c = sep then some ([], rest)
    else
      match cutG sep rest with
      | none => none
      | some (b, a) => some (c :: b, a)

/-- Go strings.SplitN(s, sep, 2) for a one-character separator:
the part before the first occurrence, and the part after it when the
separator occurs at all (parts[1] of the Go call). -/
def splitN2 (sep : Char) : GoStr → GoStr × Option GoStr
  | [] => ([], none)
  | c :: rest =>
    if c = sep then ([], some rest)
    else
      let p := splitN2 sep rest
      (c :: p.1, p.2)

/-- Go map lookup on the association list produced by the JSON
decoder. -/
def lookupG (key : GoStr) : List (GoStr × GoStr) → Option GoStr
  | [] => none
  | (k, v) :: rest => if k = key then some v else lookupG key rest

theorem hasPrefixG_append (pre rest : GoStr) :
    hasPrefixG (pre ++ rest) pre = true := by
  induction pre with
  | nil => cases rest <;> rfl
  | cons c ps ih => simp [hasPrefixG, ih]

theorem trimPrefixG_append (pre rest : GoStr) :
    trimPrefixG (pre ++ rest) pre = rest := by
  simp [trimPrefixG, hasPrefixG_append, List.drop_left]

theorem containsG_append_mid (a sub b : GoStr) :
    containsG (a ++ (sub ++ b)) sub = true := by
  induction a with
  | nil =>
    cases h : sub ++ b with
    | nil =>
      have hs : sub = [] := by
        cases sub with
        | nil => rfl
        | cons c cs => simp at h
      subst hs; rfl
    | cons c cs => simp [containsG, ← h, hasPrefixG_append]
  | cons c cs ih =>
    cases h : cs ++ (sub ++ b) with
    | nil => simp [containsG, ← h, ih]
    | cons d ds => simp [containsG, ← h, ih]

theorem cutG_eq_some (sep : Char) (s b a : GoStr)
    (h : cutG sep s = some (b, a)) : s = b ++ sep :: a := by
  induction s generalizing b a with
  | nil => simp [cutG] at h
  | cons c rest ih =>
    by_cases hc : c = sep
    · subst hc
      simp [cutG] at h
      obtain ⟨hb, ha⟩ := h
      subst hb; subst ha; rfl
    · simp [cutG, hc] at h
      cases hrec : cutG sep rest with
      | none => rw [hrec] at h; simp at h
      | some p =>
        rw [hrec] at h
        obtain ⟨b', a'⟩ := p
        simp at h
        obtain ⟨hb, ha⟩ := h
        subst hb; subst ha
        simp [ih b' a' hrec]

theorem splitN2_no_sep (sep : Char) (s : GoStr) (h : sep ∉ s) :
    splitN2 sep s = (s, none) := by
  induction s with
  | nil => rfl
  | cons c rest ih =>
    simp at h
    simp [splitN2, Ne.symm h.1, ih h.2]

theorem splitN2_first (sep : Char) (n k : GoStr) (h : sep ∉ n) :
    splitN2 sep (n ++ sep :: k) = (n, some k) := by
  induction n with
  | nil => simp [splitN2]
  | cons c rest ih =>
    simp at h
    simp [splitN2, Ne.symm h.1, ih h.2]

/-- Constant secretPrefix from the source (the reference marker
"aws-secret:"). -/
def secretPrefix : GoStr := "aws-secret:".toList

/-- Constant maxRetries = 3 from the source. -/
def maxRetries : Nat := 3

/-- Constant retryDelay = 100ms from the source, in milliseconds. -/
def retryDelayMs : Nat := 100

/-- Fixed parameter-store indirection path checked by resolveSecret. -/
def ssmReferencePath : GoStr := "/aws/reference/secretsmanager/".toList

/-- One GetSecretValue call observed by getSecret: either a transport
error (with its message) or a response whose SecretString field may be
nil (none). -/
inductive SecretAttempt where
  | err (msg : GoStr)
  | ok (secretString : Option GoStr)
deriving DecidableEq

/-- One GetParameter call observed by getParameter: either a transport
error or a response whose Parameter field may be nil (outer none) and
whose Parameter.Value field may be nil (inner none). -/
inductive ParamAttempt where
  | err (msg : GoStr)
  | ok (parameter : Option (Option GoStr))
deriving DecidableEq

/-- The Go context as the retry loops observe it: doneAt i tells
whether ctx.Done wins the select guarding the wait before the attempt
of index i, and if so carries the message of ctx.Err. -/
structure Ctx where
  doneAt : Nat → Option GoStr

/-- Errors produced by resolveSecret and the two fetch loops, one
constructor per fmt.Errorf site in the source (plus the propagated
context error). -/
inductive SecretErr where
  | emptyReference
  | emptyName
  | notJSON (secretName : GoStr) (jsonErr : GoStr)
  | keyNotFound (key : GoStr) (secretName : GoStr)
  | binaryNotSupported
  | paramNoValue
  | fetchFailed (attemptCount : Nat) (last : Option GoStr)
  | cancelled (ctxErr : GoStr)
deriving DecidableEq

instance exceptDecEq {ε α : Type} [DecidableEq ε] [DecidableEq α] :
    DecidableEq (Except ε α)
  | .error a, .error b =>
    if h : a = b then .isTrue (by rw [h])
    else .isFalse (by intro hc; cases hc; exact h rfl)
  | .error _, .ok _ => .isFalse (by intro hc; cases hc)
  | .ok _, .error _ => .isFalse (by intro hc; cases hc)
  | .ok a, .ok b =>
    if h : a = b then .isTrue (by rw [h])
    else .isFalse (by intro hc; cases hc; exact h rfl)

/-- Result of one fetch loop, instrumented with the waits performed
(in milliseconds, in order) and the number of AWS calls made. -/
structure FetchTrace where
  result : Except SecretErr GoStr
  waits : List Nat
  attemptsMade : Nat
deriving DecidableEq

/-- The retry loop of getSecret: for i in [0, fuel), wait
retryDelay * i before attempt i unless the context is done (in which
case return ctx.Err immediately); a transport error records lastErr
and continues; a response with nil SecretString returns the
binary-secrets error; otherwise return the string.  Exhausted fuel
wraps the last error with the attempt count. -/
def getSecretLoop (ctx : Ctx) (att : Nat → SecretAttempt) :
    Nat → Nat → Option GoStr → FetchTrace
  | 0, _, lastErr => ⟨.error (.fetchFailed maxRetries lastErr), [], 0⟩
  | fuel + 1, i, _lastErr =>
    if 0 < i then
      match ctx.doneAt i with
      | some e => ⟨.error (.cancelled e), [], 0⟩
      | none =>
        match att i with
        | .err e =>
          let t := getSecretLoop ctx att fuel (i + 1) (some e)
          ⟨t.result, retryDelayMs * i :: t.waits, t.attemptsMade + 1⟩
        | .ok none => ⟨.error .binaryNotSupported, [retryDelayMs * i], 1⟩
        | .ok (some s) => ⟨.ok s, [retryDelayMs * i], 1⟩
    else
      match att i with
      | .err e =>
        let t := getSecretLoop ctx att fuel (i + 1) (some e)
        ⟨t.result, t.waits, t.attemptsMade + 1⟩
      | .ok none => ⟨.error .binaryNotSupported, [], 1⟩
      | .ok (some s) => ⟨.ok s, [], 1⟩

/-- getSecret from the source: run the retry loop for maxRetries
attempts starting at index 0 with no recorded error. -/
def getSecret (ctx : Ctx) (att : Nat → SecretAttempt) : FetchTrace :=
  getSecretLoop ctx att maxRetries 0 none

/-- The retry loop of getParameter, identical to getSecretLoop except
that a response with nil Parameter or nil Parameter.Value returns the
parameter-has-no-value error. -/
def getParameterLoop (ctx : Ctx) (att : Nat → ParamAttempt) :
    Nat → Nat → Option GoStr → FetchTrace
  | 0, _, lastErr => ⟨.error (.fetchFailed maxRetries lastErr), [], 0⟩
  | fuel + 1, i, _lastErr =>
    if 0 < i then
      match ctx.doneAt i with
      | some e => ⟨.error (.cancelled e), [], 0⟩
      | none =>
        match att i with
        | .err e =>
          let t := getParameterLoop ctx att fuel (i + 1) (some e)
          ⟨t.result, retryDelayMs * i :: t.waits, t.attemptsMade + 1⟩
        | .ok none => ⟨.error .paramNoValue, [retryDelayMs * i], 1⟩
        | .ok (some none) => ⟨.error .paramNoValue, [retryDelayMs * i], 1⟩
        | .ok (some (some v)) => ⟨.ok v, [retryDelayMs * i], 1⟩
    else
      match att i with
      | .err e =>
        let t := getParameterLoop ctx att fuel (i + 1) (some e)
        ⟨t.result, t.waits, t.attemptsMade + 1⟩
      | .ok none => ⟨.error .paramNoValue, [], 1⟩
      | .ok (some none) => ⟨.error .paramNoValue, [], 1⟩
      | .ok (some (some v)) => ⟨.ok v, [], 1⟩

/-- getParameter from the source: run the retry loop for maxRetries
attempts starting at index 0 with no recorded error. -/
def getParameter (ctx : Ctx) (att : Nat → ParamAttempt) : FetchTrace :=
  getParameterLoop ctx att maxRetries 0 none

/-- External collaborators of the resolver, as oracles: the context,
config.LoadDefaultConfig (some message when it fails), the per-name
per-attempt results of the two AWS clients, and the stdlib JSON
decoder json.Unmarshal into a flat string-to-string map (an error
message, or the decoded association list). -/
structure AwsDeps where
  ctx : Ctx
  loadConfig : Option GoStr
  secretAttempt : GoStr → Nat → SecretAttempt
  paramAttempt : GoStr → Nat → ParamAttempt
  jsonParse : GoStr → Except GoStr (List (GoStr × GoStr))

/-- The tail of resolveSecret after parsing, from the source: fetch
the secret by name; with no key return the raw string; with a key,
decode the raw string as JSON (NotJSON error naming the secret on
failure), then look the key up (KeyNotFound naming key and secret when
absent). -/
def fetchAndExtract (d : AwsDeps) (secretName : GoStr)
    (keyOpt : Option GoStr) : Except SecretErr GoStr :=
  match (getSecret d.ctx (d.secretAttempt secretName)).result with
  | .error e => .error e
  | .ok secretValue =>
    match keyOpt with
    | none => .ok secretValue
    | some key =>
      match d.jsonParse secretValue with
      | .error je => .error (.notJSON secretName je)
      | .ok parsed =>
        match lookupG key parsed with
        | none => .error (.keyNotFound key secretName)
        | some v => .ok v

/-- resolveSecret from the source: strip the reference marker; empty
remainder is an error; a remainder starting with the parameter-store
indirection path delegates wholesale to getParameter; otherwise split
on the first hash into secret name and optional key (empty name is an
error) and fetch-and-extract. -/
def resolveSecret (d : AwsDeps) (ref : GoStr) : Except SecretErr GoStr :=
  let trimmed := trimPrefixG ref secretPrefix
  if trimmed = [] then .error .emptyReference
  else if hasPrefixG trimmed ssmReferencePath then
    (getParameter d.ctx (d.paramAttempt trimmed)).result
  else
    let parts := splitN2 '#' trimmed
    if parts.1 = [] then .error .emptyName
    else fetchAndExtract d parts.1 parts.2

/-- Errors returned by resolveSecrets: the config-load wrap and the
per-entry wrap that carries the entry key and the resolver error. -/
inductive PipelineErr where
  | loadConfigFailed (msg : GoStr)
  | resolveFailed (key : GoStr) (e : SecretErr)
deriving DecidableEq

/-- The entry loop of resolveSecrets, from the source: cut each entry
at the first equals sign (entries without one are skipped); a value
carrying the reference marker is resolved, any error aborting the
whole call wrapped with the entry key; the rebuilt KEY=value strings
are appended in order. -/
def resolveEntries (d : AwsDeps) : List GoStr → Except PipelineErr (List GoStr)
  | [] => .ok []
  | e :: rest =>
    match cutG '=' e with
    | none => resolveEntries d rest
    | some (name, value) =>
      if hasPrefixG value secretPrefix then
        match resolveSecret d value with
        | .error err => .error (.resolveFailed name err)
        | .ok resolved =>
          (resolveEntries d rest).map (fun r => (name ++ '=' :: resolved) :: r)
      else
        (resolveEntries d rest).map (fun r => (name ++ '=' :: value) :: r)

/-- resolveSecrets from the source: scan all raw entries for the
reference marker substring; when none carries it return the input
unchanged (no client setup); otherwise load the AWS config (an error
aborts) and run the entry loop. -/
def resolveSecrets (d : AwsDeps) (env : List GoStr) :
    Except PipelineErr (List GoStr) :=
  if env.any (fun e => containsG e secretPrefix) then
    match d.loadConfig with
    | some msg => .error (.loadConfigFailed msg)
    | none => resolveEntries d env
  else .ok env

/-- Error message rendering of SecretErr, following the fmt.Errorf
format strings of the source. -/
def renderSecretErr : SecretErr → GoStr
  | .emptyReference => "empty secret reference".toList
  | .emptyName => "empty secret name".toList
  | .notJSON s je =>
    "secret ".toList ++ s ++ " is not valid JSON: ".toList ++ je
  | .keyNotFound k s =>
    "key ".toList ++ k ++ " not found in secret ".toList ++ s
  | .binaryNotSupported => "binary secrets not supported".toList
  | .paramNoValue => "parameter has no value".toList
  | .fetchFailed n last =>
    "failed after ".toList ++ (Nat.repr n).toList ++ " retries: ".toList
      ++ last.getD []
  | .cancelled e => e

/-- Error message rendering of PipelineErr, following the fmt.Errorf
format strings of resolveSecrets: the per-entry wrap interpolates the
entry key and the wrapped error only. -/
def renderPipelineErr : PipelineErr → GoStr
  | .loadConfigFailed msg => "failed to load AWS config: ".toList ++ msg
  | .resolveFailed k e =>
    "failed to resolve ".toList ++ k ++ ": ".toList ++ renderSecretErr e

/-- Per-entry output of the entry loop on the success path: entries
without an equals sign contribute nothing; a value carrying the
reference marker contributes its resolved KEY=value; any other value
passes through as KEY=value unchanged. -/
def entryOut (d : AwsDeps) (e : GoStr) : Option GoStr :=
  match cutG '=' e with
  | none => none
  | some (name, value) =>
    if hasPrefixG value secretPrefix then
      match resolveSecret d value with
      | .error _ => none
      | .ok r => some (name ++ '=' :: r)
    else some (name ++ '=' :: value)

/-- An entry that does not make the entry loop abort: it has no equals
sign, or its value does not carry the reference marker, or its value
resolves successfully. -/
def entryOk (d : AwsDeps) (e : GoStr) : Prop :=
  cutG '=' e = none ∨
    ∃ name value, cutG '=' e = some (name, value) ∧
      (hasPrefixG value secretPrefix = false ∨
        ∃ r, resolveSecret d value = .ok r)

/-- The entry with key k is the first entry of env whose value carries
the reference marker and fails to resolve (with error err); every
entry before it is harmless. -/
def firstFailing (d : AwsDeps) (env : List GoStr) (k : GoStr)
    (err : SecretErr) : Prop :=
  ∃ pre e post value, env = pre ++ e :: post ∧
    cutG '=' e = some (k, value) ∧
    hasPrefixG value secretPrefix = true ∧
    resolveSecret d value = .error err ∧
    ∀ e' ∈ pre, entryOk d e'

/-- A context that is never cancelled. -/
def ctxNever : Ctx := ⟨fun _ => none⟩

/-- Concrete oracles for witnesses: config loads, but every AWS call
fails at the transport level and nothing decodes as JSON. -/
def depsDown : AwsDeps where
  ctx := ctxNever
  loadConfig := none
  secretAttempt := fun _ _ => .err "service unavailable".toList
  paramAttempt := fun _ _ => .err "service unavailable".toList
  jsonParse := fun _ => .error "invalid character".toList

/-- Concrete oracles for witnesses: every secret fetch returns the
string v on the first attempt, every parameter fetch returns p. -/
def depsUp : AwsDeps where
  ctx := ctxNever
  loadConfig := none
  secretAttempt := fun _ _ => .ok (some "v".toList)
  paramAttempt := fun _ _ => .ok (some (some "p".toList))
  jsonParse := fun _ => .error "invalid character".toList

/-- Termination status of the child as cmd.Wait reports it through
syscall.WaitStatus: a normal exit with a code, or termination by a
signal. -/
inductive WaitStatus where
  | exited (code : Nat)
  | signaled (sig : Nat)
deriving DecidableEq

/-- Modelled Go stdlib syscall.WaitStatus.ExitStatus: the exact code
for a normally exited child, and -1 when the child did not exit
normally (terminated by a signal). -/
def exitStatus : WaitStatus → Int
  | .exited code => code
  | .signaled _ => -1

/-- Outcome of cmd.Wait in execute: nil error (child exited 0), an
exec.ExitError whose Sys may or may not be a syscall.WaitStatus, or
any other wait error. -/
inductive WaitOutcome where
  | success
  | exitErr (status : Option WaitStatus)
  | otherErr
deriving DecidableEq

/-- How far execute got with the child: cmd.Start failed, Start
succeeded but cmd.Process was nil, or the child ran to a wait
outcome. -/
inductive StartResult where
  | startFailed
  | noProcessInfo
  | started (pid : Nat) (wait : WaitOutcome)
deriving DecidableEq

/-- execute from the source, as the translation of the child's
termination into the supervisor exit code: start failure and missing
process info return 1; a nil wait error returns 0; an ExitError with a
WaitStatus returns its ExitStatus; every other wait failure returns
1. -/
def execute : StartResult → Int
  | .startFailed => 1
  | .noProcessInfo => 1
  | .started _ .success => 0
  | .started _ (.exitErr (some ws)) => exitStatus ws
  | .started _ (.exitErr none) => 1
  | .started _ .otherErr => 1

/-- The signals handleSignals can receive. -/
inductive Sig where
  | sigterm
  | sigint
  | sigquit
  | sigusr1
  | sigusr2
  | other (code : Nat)
deriving DecidableEq

/-- What one iteration of the handleSignals loop does with a signal:
whether forwardSignal is called, and whether the 10-second forced-kill
goroutine is spawned. -/
structure SigEffect where
  forwardsToChild : Bool
  startsKillTimer : Bool
deriving DecidableEq

/-- One iteration of the handleSignals switch, from the source:
SIGTERM, SIGINT and SIGQUIT are forwarded, and only SIGTERM
additionally spawns the graceful-timeout goroutine; SIGUSR1 and
SIGUSR2 are forwarded; everything else is ignored. -/
def handleSignalsStep : Sig → SigEffect
  | .sigterm => ⟨true, true⟩
  | .sigint => ⟨true, false⟩
  | .sigquit => ⟨true, false⟩
  | .sigusr1 => ⟨true, false⟩
  | .sigusr2 => ⟨true, false⟩
  | .other _ => ⟨false, false⟩

/-- Constant gracefulTimeout = 10 seconds from the source. -/
def gracefulTimeoutSecs : Nat := 10

/-- handleSignals over a timed sequence of received signals (receipt
time in seconds, signal): the signals forwarded to the child, and the
expiry times of the forced-kill timers spawned (one per SIGTERM,
expiring gracefulTimeout after its receipt, with no deduplication and
no cancellation). -/
def handleSignals (sigs : List (Nat × Sig)) :
    List (Nat × Sig) × List Nat :=
  (sigs.filter (fun ts => (handleSignalsStep ts.2).forwardsToChild),
   sigs.filterMap (fun ts =>
     if (handleSignalsStep ts.2).startsKillTimer then
       some (ts.1 + gracefulTimeoutSecs)
     else none))

/-- Target of one kill call of the forced-kill goroutine. -/
inductive KillTarget where
  | childPid
  | processGroup
deriving DecidableEq

/-- Every kill call the spawned goroutines eventually attempt: each
timer, when it fires, sends SIGKILL to the child pid and then to the
process group, whether or not the child is still running. -/
def killAttempts (sigs : List (Nat × Sig)) : List (Nat × KillTarget) :=
  ((handleSignals sigs).2).flatMap
    (fun t => [(t, KillTarget.childPid), (t, KillTarget.processGroup)])

/-- Whether a child that exits at exitTime actually receives a forced
kill: true exactly when some spawned timer fires strictly before the
child has exited; a kill attempt on an already-exited child is a
no-op. -/
def forcedKillDelivered (exitTime : Nat) (sigs : List (Nat × Sig)) : Bool :=
  ((handleSignals sigs).2).any (fun t => decide (t < exitTime))

theorem cutG_eq_none (sep : Char) (s : GoStr) :
    cutG sep s = none ↔ sep ∉ s := by
  induction s with
  | nil => simp [cutG]
  | cons c rest ih =>
    by_cases hc : c = sep
    · subst hc; simp [cutG]
    · simp only [cutG, if_neg hc]
      cases hrec : cutG sep rest with
      | none => simpa [Ne.symm hc, hrec] using ih
      | some p =>
        obtain ⟨b, a⟩ := p
        rw [hrec] at ih
        simp only [List.mem_cons]
        constructor
        · intro h; simp at h
        · intro h
          exfalso
          have : sep ∈ rest := by
            by_contra hmem
            exact (Option.some_ne_none _ (ih.mpr hmem)).elim
          exact h (Or.inr this)

theorem entryOut_mem_eq (d : AwsDeps) (e o : GoStr)
    (h : entryOut d e = some o) : '=' ∈ o := by
  unfold entryOut at h
  cases hcut : cutG '=' e with
  | none => rw [hcut] at h; simp at h
  | some p =>
    obtain ⟨name, value⟩ := p
    rw [hcut] at h; dsimp only at h
    by_cases hpre : hasPrefixG value secretPrefix = true
    · rw [if_pos hpre] at h
      cases hres : resolveSecret d value with
      | error err => rw [hres] at h; simp at h
      | ok r =>
        rw [hres] at h
        simp at h
        subst h
        simp
    · rw [if_neg hpre] at h
      simp at h
      subst h
      simp

theorem entryOut_not_prefixed (d : AwsDeps) (e name value : GoStr)
    (hcut : cutG '=' e = some (name, value))
    (hpre : hasPrefixG value secretPrefix = false) :
    entryOut d e = some e := by
  unfold entryOut
  rw [hcut]
  dsimp only
  rw [if_neg (by simp [hpre]),
    show e = name ++ '=' :: value from cutG_eq_some '=' e name value hcut]

theorem resolveEntries_ok (d : AwsDeps) :
    ∀ (env out : List GoStr),
      resolveEntries d env = .ok out → out = env.filterMap (entryOut d) := by
  intro env
  induction env with
  | nil =>
    intro out h
    simp only [resolveEntries] at h
    injection h with h
    simp [h.symm]
  | cons e rest ih =>
    intro out h
    simp only [resolveEntries] at h
    cases hcut : cutG '=' e with
    | none =>
      rw [hcut] at h; dsimp only at h
      simp [List.filterMap_cons, entryOut, hcut, ih out h]
    | some p =>
      obtain ⟨name, value⟩ := p
      rw [hcut] at h; dsimp only at h
      by_cases hpre : hasPrefixG value secretPrefix = true
      · rw [if_pos hpre] at h
        cases hres : resolveSecret d value with
        | error err => rw [hres] at h; simp at h
        | ok r =>
          rw [hres] at h
          cases hrec : resolveEntries d rest with
          | error pe => rw [hrec] at h; simp [Except.map] at h
          | ok rl =>
            rw [hrec] at h
            simp only [Except.map] at h
            injection h with h
            rw [← h]
            simp [List.filterMap_cons, entryOut, hcut, hpre, hres,
              ih rl hrec]
      · rw [if_neg hpre] at h
        cases hrec : resolveEntries d rest with
        | error pe => rw [hrec] at h; simp [Except.map] at h
        | ok rl =>
          rw [hrec] at h
          simp only [Except.map] at h
          injection h with h
          rw [← h]
          simp [List.filterMap_cons, entryOut, hcut, hpre, ih rl hrec]

theorem resolveEntries_err (d : AwsDeps) :
    ∀ (env : List GoStr) (k : GoStr) (err : SecretErr),
      resolveEntries d env = .error (.resolveFailed k err) →
      firstFailing d env k err := by
  intro env
  induction env with
  | nil =>
    intro k err h
    simp [resolveEntries] at h
  | cons e rest ih =>
    intro k err h
    simp only [resolveEntries] at h
    cases hcut : cutG '=' e with
    | none =>
      rw [hcut] at h; dsimp only at h
      obtain ⟨pre, e', post, value, henv, h2, h3, h4, h5⟩ := ih k err h
      refine ⟨e :: pre, e', post, value, by rw [henv]; rfl, h2, h3, h4, ?_⟩
      intro x hx
      rcases List.mem_cons.mp hx with hx | hx
      · subst hx; exact Or.inl hcut
      · exact h5 x hx
    | some p =>
      obtain ⟨name, value⟩ := p
      rw [hcut] at h; dsimp only at h
      by_cases hpre : hasPrefixG value secretPrefix = true
      · rw [if_pos hpre] at h
        cases hres : resolveSecret d value with
        | error err' =>
          rw [hres] at h
          injection h with h
          injection h with hk herr
          subst hk; subst herr
          exact ⟨[], e, rest, value, rfl, hcut, hpre, hres, by simp⟩
        | ok r =>
          rw [hres] at h
          cases hrec : resolveEntries d rest with
          | error pe =>
            rw [hrec] at h
            simp only [Except.map] at h
            injection h with h
            subst h
            obtain ⟨pre, e', post, v', henv, h2, h3, h4, h5⟩ :=
              ih k err hrec
            refine ⟨e :: pre, e', post, v', by rw [henv]; rfl, h2, h3, h4, ?_⟩
            intro x hx
            rcases List.mem_cons.mp hx with hx | hx
            · subst hx
              exact Or.inr ⟨name, value, hcut, Or.inr ⟨r, hres⟩⟩
            · exact h5 x hx
          | ok rl => rw [hrec] at h; simp [Except.map] at h
      · rw [if_neg hpre] at h
        cases hrec : resolveEntries d rest with
        | error pe =>
          rw [hrec] at h
          simp only [Except.map] at h
          injection h with h
          subst h
          obtain ⟨pre, e', post, v', henv, h2, h3, h4, h5⟩ := ih k err hrec
          refine ⟨e :: pre, e', post, v', by rw [henv]; rfl, h2, h3, h4, ?_⟩
          intro x hx
          rcases List.mem_cons.mp hx with hx | hx
          · subst hx
            refine Or.inr ⟨name, value, hcut, Or.inl ?_⟩
            simpa using hpre
          · exact h5 x hx
        | ok rl => rw [hrec] at h; simp [Except.map] at h

/-- Unfolding of resolveSecret on a reference that carries the
marker. -/
theorem resolveSecret_append (d : AwsDeps) (rest : GoStr) :
    resolveSecret d (secretPrefix ++ rest) =
      (if rest = [] then .error .emptyReference
       else if hasPrefixG rest ssmReferencePath then
         (getParameter d.ctx (d.paramAttempt rest)).result
       else if (splitN2 '#' rest).1 = [] then .error .emptyName
       else fetchAndExtract d (splitN2 '#' rest).1 (splitN2 '#' rest).2) := by
  unfold resolveSecret
  rw [trimPrefixG_append]

/-- C1: resolveSecrets is atomic.  A success returns the fully
resolved sequence (the input itself on the fast path, otherwise the
entry-wise resolution of the whole input — every entry whose value
carries the reference marker appears resolved, per entryOut), and a
resolution failure returns an error and no sequence at all (the Except
result carries no list in its error constructor), where the error
wraps the key of the first offending entry and its rendered message
interpolates that key and the wrapped resolver error only — the entry
value is not an argument of the wrap.  The config-load failure is the
only keyless error and precedes all entry processing. -/
theorem c1_resolveSecrets_atomic (d : AwsDeps) (env : List GoStr) :
    (∀ out, resolveSecrets d env = .ok out →
       out = env ∨ out = env.filterMap (entryOut d)) ∧
    (∀ k err, resolveSecrets d env = .error (.resolveFailed k err) →
       firstFailing d env k err ∧
       renderPipelineErr (.resolveFailed k err) =
         "failed to resolve ".toList ++
           (k ++ (": ".toList ++ renderSecretErr err)) ∧
       containsG (renderPipelineErr (.resolveFailed k err)) k = true) := by
  constructor
  · intro out h
    unfold resolveSecrets at h
    by_cases hany : env.any (fun e => containsG e secretPrefix) = true
    · rw [if_pos hany] at h
      cases hcfg : d.loadConfig with
      | some msg => rw [hcfg] at h; dsimp only at h; simp at h
      | none =>
        rw [hcfg] at h; dsimp only at h
        exact Or.inr (resolveEntries_ok d env out h)
    · rw [if_neg hany] at h
      injection h with h
      exact Or.inl h.symm
  · intro k err h
    unfold resolveSecrets at h
    by_cases hany : env.any (fun e => containsG e secretPrefix) = true
    · rw [if_pos hany] at h
      cases hcfg : d.loadConfig with
      | some msg => rw [hcfg] at h; dsimp only at h; simp at h
      | none =>
        rw [hcfg] at h; dsimp only at h
        have hrend : renderPipelineErr (.resolveFailed k err) =
            "failed to resolve ".toList ++
              (k ++ (": ".toList ++ renderSecretErr err)) := by
          simp [renderPipelineErr]
        refine ⟨resolveEntries_err d env k err h, hrend, ?_⟩
        rw [hrend]
        exact containsG_append_mid _ k _
    · rw [if_neg hany] at h
      simp at h

/-- Witness for C1 at concrete inputs: the success case resolves the
whole input of depsUp, and the failure case on an empty reference
wraps the key A of the offending entry. -/
theorem c1_resolveSecrets_atomic_witness :
    (["GOOD=value".toList, "X=v".toList] =
        (["MALFORMED".toList, "GOOD=value".toList,
          "X=aws-secret:s".toList] : List GoStr) ∨
      ["GOOD=value".toList, "X=v".toList] =
        (["MALFORMED".toList, "GOOD=value".toList,
          "X=aws-secret:s".toList] : List GoStr).filterMap
          (entryOut depsUp)) ∧
    (firstFailing depsDown ["A=aws-secret:".toList] "A".toList
        SecretErr.emptyReference ∧
      renderPipelineErr
          (.resolveFailed "A".toList SecretErr.emptyReference) =
        "failed to resolve ".toList ++
          ("A".toList ++
            (": ".toList ++ renderSecretErr SecretErr.emptyReference)) ∧
      containsG
          (renderPipelineErr
            (.resolveFailed "A".toList SecretErr.emptyReference))
          "A".toList = true) :=
  ⟨(c1_resolveSecrets_atomic depsUp _).1 _ (by decide),
   (c1_resolveSecrets_atomic depsDown _).2 _ _ (by decide)⟩

/-- C9: when no entry contains the reference-marker substring,
resolveSecrets returns the input sequence unchanged, for every oracle
environment d — in particular the result does not depend on the AWS
clients, on the config loader (even a failing one) or on the context,
which formalises that no fetch and no client setup is performed. -/
theorem c9_fast_path_identity (d : AwsDeps) (env : List GoStr)
    (h : ∀ e ∈ env, containsG e secretPrefix = false) :
    resolveSecrets d env = .ok env := by
  have hany : env.any (fun e => containsG e secretPrefix) = false := by
    rw [List.any_eq_false]
    intro x hx
    simp [h x hx]
  simp [resolveSecrets, hany]

/-- Witness for C9: the fast path on a concrete prefix-free input,
under oracles whose config load and fetches all fail. -/
theorem c9_fast_path_identity_witness :
    resolveSecrets
        ⟨ctxNever, some "no credentials".toList,
          fun _ _ => .err "down".toList, fun _ _ => .err "down".toList,
          fun _ => .error "bad".toList⟩
        ["MALFORMED".toList, "GOOD=value".toList] =
      .ok ["MALFORMED".toList, "GOOD=value".toList] :=
  c9_fast_path_identity _ _ (by decide)

/-- C10: whether a malformed entry is dropped depends on the whole
input.  When no entry contains the reference-marker substring the
input (malformed entries included) is returned verbatim; when some
entry contains it — anywhere, also mid-value — a successful call
returns the filterMap of entryOut, in which every entry without an
equals sign is dropped and every well-formed entry whose value does
not begin with the marker passes through unchanged. -/
theorem c10_drop_depends_on_whole_input (d : AwsDeps)
    (env : List GoStr) :
    ((∀ e ∈ env, containsG e secretPrefix = false) →
       resolveSecrets d env = .ok env) ∧
    (∀ e₀ ∈ env, containsG e₀ secretPrefix = true →
       ∀ out, resolveSecrets d env = .ok out →
         out = env.filterMap (entryOut d) ∧
         (∀ e ∈ env, '=' ∉ e → e ∉ out) ∧
         (∀ e ∈ env, ∀ n v, cutG '=' e = some (n, v) →
            hasPrefixG v secretPrefix = false → e ∈ out)) := by
  constructor
  · intro h
    have hany : env.any (fun e => containsG e secretPrefix) = false := by
      rw [List.any_eq_false]
      intro x hx
      simp [h x hx]
    simp [resolveSecrets, hany]
  · intro e₀ he₀ hc out hok
    have hany : env.any (fun e => containsG e secretPrefix) = true := by
      rw [List.any_eq_true]
      exact ⟨e₀, he₀, hc⟩
    unfold resolveSecrets at hok
    rw [if_pos hany] at hok
    cases hcfg : d.loadConfig with
    | some msg => rw [hcfg] at hok; dsimp only at hok; simp at hok
    | none =>
      rw [hcfg] at hok; dsimp only at hok
      have hchar := resolveEntries_ok d env out hok
      refine ⟨hchar, ?_, ?_⟩
      · intro e _ hne hmem
        rw [hchar] at hmem
        obtain ⟨x, _, hxo⟩ := List.mem_filterMap.mp hmem
        exact hne (entryOut_mem_eq d x e hxo)
      · intro e he n v hcut hpre
        rw [hchar]
        exact List.mem_filterMap.mpr
          ⟨e, he, entryOut_not_prefixed d e n v hcut hpre⟩

/-- Witness for C10: with no marker anywhere the malformed entry is
kept; with the marker mid-value (never resolved) the malformed entry
is dropped while the unprefixed entry passes through unchanged. -/
theorem c10_drop_depends_on_whole_input_witness :
    resolveSecrets depsDown ["MALFORMED".toList] =
      .ok ["MALFORMED".toList] ∧
    "MALFORMED".toList ∉ (["A=xaws-secret:tail".toList] : List GoStr) ∧
    "A=xaws-secret:tail".toList ∈
      (["A=xaws-secret:tail".toList] : List GoStr) :=
  ⟨(c10_drop_depends_on_whole_input depsDown _).1 (by decide),
   ((c10_drop_depends_on_whole_input depsUp
        ["MALFORMED".toList, "A=xaws-secret:tail".toList]).2
      "A=xaws-secret:tail".toList (by decide) (by decide)
      ["A=xaws-secret:tail".toList] (by decide)).2.1
     "MALFORMED".toList (by decide) (by decide),
   ((c10_drop_depends_on_whole_input depsUp
        ["MALFORMED".toList, "A=xaws-secret:tail".toList]).2
      "A=xaws-secret:tail".toList (by decide) (by decide)
      ["A=xaws-secret:tail".toList] (by decide)).2.2
     "A=xaws-secret:tail".toList (by decide) "A".toList
     "xaws-secret:tail".toList (by decide) (by decide)⟩

/-- Counterexample to C2 as stated: the input [MALFORMED, GOOD=value]
contains no reference marker, so resolveSecrets takes the fast path
and returns it verbatim — the malformed entry is kept, and the output
is not [GOOD=value]. -/
theorem c2_counterexample :
    resolveSecrets depsDown ["MALFORMED".toList, "GOOD=value".toList] =
      .ok ["MALFORMED".toList, "GOOD=value".toList] ∧
    resolveSecrets depsDown ["MALFORMED".toList, "GOOD=value".toList] ≠
      .ok ["GOOD=value".toList] := by decide

/-- C2 amended: entries with no equals sign are dropped only on the
resolving path, i.e. when at least one entry contains the
reference-marker substring; they never cause the call to fail (every
error is a config-load failure or wraps the first failing reference
entry); and the concrete input [MALFORMED, GOOD=value, X=aws-secret:s]
with a successful fetch of v yields [GOOD=value, X=v]. -/
theorem c2_malformed_dropped_on_resolving_path (d : AwsDeps)
    (env : List GoStr) :
    (∀ e₀ ∈ env, containsG e₀ secretPrefix = true →
       ∀ out, resolveSecrets d env = .ok out →
         ∀ e ∈ env, '=' ∉ e → e ∉ out) ∧
    (∀ pe, resolveSecrets d env = .error pe →
       (∃ m, pe = .loadConfigFailed m) ∨
       (∃ k err, pe = .resolveFailed k err ∧ firstFailing d env k err)) ∧
    resolveSecrets depsUp
        ["MALFORMED".toList, "GOOD=value".toList,
          "X=aws-secret:s".toList] =
      .ok ["GOOD=value".toList, "X=v".toList] := by
  refine ⟨?_, ?_, by decide⟩
  · intro e₀ he₀ hc out hok e _ hne hmem
    have hany : env.any (fun e => containsG e secretPrefix) = true := by
      rw [List.any_eq_true]
      exact ⟨e₀, he₀, hc⟩
    unfold resolveSecrets at hok
    rw [if_pos hany] at hok
    cases hcfg : d.loadConfig with
    | some msg => rw [hcfg] at hok; dsimp only at hok; simp at hok
    | none =>
      rw [hcfg] at hok; dsimp only at hok
      rw [resolveEntries_ok d env out hok] at hmem
      obtain ⟨x, _, hxo⟩ := List.mem_filterMap.mp hmem
      exact hne (entryOut_mem_eq d x e hxo)
  · intro pe hpe
    unfold resolveSecrets at hpe
    by_cases hany : env.any (fun e => containsG e secretPrefix) = true
    · rw [if_pos hany] at hpe
      cases hcfg : d.loadConfig with
      | some msg =>
        rw [hcfg] at hpe
        dsimp only at hpe
        injection hpe with hpe
        exact Or.inl ⟨msg, hpe.symm⟩
      | none =>
        rw [hcfg] at hpe
        dsimp only at hpe
        cases pe with
        | loadConfigFailed m => exact Or.inl ⟨m, rfl⟩
        | resolveFailed k err =>
          exact Or.inr ⟨k, err, rfl, resolveEntries_err d env k err hpe⟩
    · rw [if_neg hany] at hpe
      simp at hpe

/-- Witness for C2 amended: on the resolving path the malformed entry
is absent from the output, and the concrete example holds. -/
theorem c2_malformed_dropped_on_resolving_path_witness :
    "MALFORMED".toList ∉
      (["GOOD=value".toList, "X=v".toList] : List GoStr) ∧
    resolveSecrets depsUp
        ["MALFORMED".toList, "GOOD=value".toList,
          "X=aws-secret:s".toList] =
      .ok ["GOOD=value".toList, "X=v".toList] :=
  ⟨(c2_malformed_dropped_on_resolving_path depsUp
        ["MALFORMED".toList, "GOOD=value".toList,
          "X=aws-secret:s".toList]).1
      "X=aws-secret:s".toList (by decide) (by decide)
      ["GOOD=value".toList, "X=v".toList] (by decide)
      "MALFORMED".toList (by decide) (by decide),
   (c2_malformed_dropped_on_resolving_path depsDown []).2.2⟩

/-- Counterexample to C3 as stated: a child terminated by an uncaught
signal (here signal 9) makes execute return the ExitStatus value -1,
not 1. -/
theorem c3_counterexample :
    execute (.started 7 (.exitErr (some (.signaled 9)))) = -1 ∧
    execute (.started 7 (.exitErr (some (.signaled 9)))) ≠ 1 := by decide

/-- C3 amended: execute preserves the exact code of a normal exit
(42 yields 42, 0 yields 0), returns -1 — the Go WaitStatus.ExitStatus
value — for a child terminated by an uncaught signal, returns 1 when
the command cannot be spawned (no child, hence no wait), and returns 1
for any other wait failure. -/
theorem c3_exit_code_translation :
    (∀ p n, execute (.started p (.exitErr (some (.exited n)))) = n) ∧
    execute (.started 1 (.exitErr (some (.exited 42)))) = 42 ∧
    (∀ p, execute (.started p .success) = 0) ∧
    (∀ p s, execute (.started p (.exitErr (some (.signaled s)))) = -1) ∧
    execute .startFailed = 1 ∧
    execute .noProcessInfo = 1 ∧
    (∀ p, execute (.started p .otherErr) = 1) ∧
    (∀ p, execute (.started p (.exitErr none)) = 1) :=
  ⟨fun _ _ => rfl, rfl, fun _ => rfl, fun _ _ => rfl, rfl, rfl,
   fun _ => rfl, fun _ => rfl⟩

/-- Counterexample to C5 as stated: SIGINT is a termination-class
signal and is forwarded, yet no 10-second forced-kill timer starts
(only SIGTERM starts one). -/
theorem c5_counterexample :
    (handleSignalsStep Sig.sigint).forwardsToChild = true ∧
    (handleSignalsStep Sig.sigint).startsKillTimer = false ∧
    (handleSignalsStep Sig.sigquit).startsKillTimer = false ∧
    (handleSignalsStep Sig.sigterm).startsKillTimer = true := by decide

/-- C5 amended: only SIGTERM starts the 10-second one-shot timer
(SIGINT and SIGQUIT are forwarded without one); every SIGTERM spawns
its own timer expiring 10 seconds after its receipt, with no
deduplication of repeated SIGTERMs; each spawned timer always attempts
a forced kill on both the child pid and the process group; a child
that exits no later than every timer expiry never receives a forced
kill (the attempts are no-ops), and a timer firing while the child is
still running delivers the forced kill. -/
theorem c5_kill_timer_policy (sigs : List (Nat × Sig))
    (exitTime t t₁ t₂ : Nat) (rest : List (Nat × Sig)) :
    (handleSignalsStep Sig.sigterm = ⟨true, true⟩ ∧
      handleSignalsStep Sig.sigint = ⟨true, false⟩ ∧
      handleSignalsStep Sig.sigquit = ⟨true, false⟩) ∧
    (handleSignals ((t₁, Sig.sigterm) :: (t₂, Sig.sigterm) :: rest)).2 =
      (t₁ + gracefulTimeoutSecs) :: (t₂ + gracefulTimeoutSecs) ::
        (handleSignals rest).2 ∧
    (∀ ts ∈ sigs, ts.2 = Sig.sigterm →
       ts.1 + gracefulTimeoutSecs ∈ (handleSignals sigs).2) ∧
    (t ∈ (handleSignals sigs).2 →
       (t, KillTarget.childPid) ∈ killAttempts sigs ∧
       (t, KillTarget.processGroup) ∈ killAttempts sigs) ∧
    ((∀ u ∈ (handleSignals sigs).2, exitTime ≤ u) →
       forcedKillDelivered exitTime sigs = false) ∧
    (t ∈ (handleSignals sigs).2 → t < exitTime →
       forcedKillDelivered exitTime sigs = true) := by
  refine ⟨⟨rfl, rfl, rfl⟩, ?_, ?_, ?_, ?_, ?_⟩
  · simp [handleSignals, handleSignalsStep]
  · intro ts hts hterm
    simp only [handleSignals]
    exact List.mem_filterMap.mpr ⟨ts, hts, by simp [hterm, handleSignalsStep]⟩
  · intro ht
    constructor
    · exact List.mem_flatMap.mpr ⟨t, ht, by simp⟩
    · exact List.mem_flatMap.mpr ⟨t, ht, by simp⟩
  · intro h
    rw [forcedKillDelivered, List.any_eq_false]
    intro u hu
    simp [Nat.not_lt.mpr (h u hu)]
  · intro ht hlt
    rw [forcedKillDelivered, List.any_eq_true]
    exact ⟨t, ht, by simp [hlt]⟩

/-- Witness for C5 amended at a concrete trace: two SIGTERMs at 0 and
3 seconds spawn timers at 10 and 13; a child exiting at 5 receives no
forced kill, one still running at 20 does, and both kill targets are
attempted for the timer at 10. -/
theorem c5_kill_timer_policy_witness :
    forcedKillDelivered 5 [(0, Sig.sigterm), (3, Sig.sigterm)] = false ∧
    forcedKillDelivered 20 [(0, Sig.sigterm), (3, Sig.sigterm)] = true ∧
    (10, KillTarget.childPid) ∈
      killAttempts [(0, Sig.sigterm), (3, Sig.sigterm)] ∧
    (10, KillTarget.processGroup) ∈
      killAttempts [(0, Sig.sigterm), (3, Sig.sigterm)] :=
  ⟨(c5_kill_timer_policy [(0, Sig.sigterm), (3, Sig.sigterm)]
      5 10 0 0 []).2.2.2.2.1 (by decide),
   (c5_kill_timer_policy [(0, Sig.sigterm), (3, Sig.sigterm)]
      20 10 0 0 []).2.2.2.2.2 (by decide) (by decide),
   ((c5_kill_timer_policy [(0, Sig.sigterm), (3, Sig.sigterm)]
      20 10 0 0 []).2.2.2.1 (by decide)).1,
   ((c5_kill_timer_policy [(0, Sig.sigterm), (3, Sig.sigterm)]
      20 10 0 0 []).2.2.2.1 (by decide)).2⟩

/-- C6: resolveSecret applies the parsing rules in order on any
reference carrying the marker: empty remainder yields the
empty-reference error; a remainder starting with the parameter-store
indirection path is delegated wholesale to getParameter with no key
extraction; otherwise the remainder is split on the first hash only
(name#k1#k2 yields name and key k1#k2), with the empty-name error when
the name part is empty. -/
theorem c6_resolveSecret_parsing (d : AwsDeps) (rest : GoStr) :
    (rest = [] →
       resolveSecret d (secretPrefix ++ rest) = .error .emptyReference) ∧
    (hasPrefixG rest ssmReferencePath = true →
       resolveSecret d (secretPrefix ++ rest) =
         (getParameter d.ctx (d.paramAttempt rest)).result) ∧
    (rest ≠ [] → hasPrefixG rest ssmReferencePath = false →
       (splitN2 '#' rest).1 = [] →
       resolveSecret d (secretPrefix ++ rest) = .error .emptyName) ∧
    (rest ≠ [] → hasPrefixG rest ssmReferencePath = false →
       (splitN2 '#' rest).1 ≠ [] →
       resolveSecret d (secretPrefix ++ rest) =
         fetchAndExtract d (splitN2 '#' rest).1 (splitN2 '#' rest).2) ∧
    (∀ n k, '#' ∉ n → splitN2 '#' (n ++ '#' :: k) = (n, some k)) ∧
    splitN2 '#' "name#k1#k2".toList =
      ("name".toList, some "k1#k2".toList) := by
  refine ⟨?_, ?_, ?_, ?_, fun n k h => splitN2_first '#' n k h, by decide⟩
  · intro h
    subst h
    rw [resolveSecret_append]
    simp
  · intro hp
    have hne : rest ≠ [] := by
      intro h
      subst h
      simp [show hasPrefixG ([] : GoStr) ssmReferencePath = false
        from by decide] at hp
    rw [resolveSecret_append, if_neg hne, if_pos hp]
  · intro hne hp hsplit
    rw [resolveSecret_append, if_neg hne, if_neg (by simp [hp]),
      if_pos hsplit]
  · intro hne hp hsplit
    rw [resolveSecret_append, if_neg hne, if_neg (by simp [hp]),
      if_neg hsplit]

/-- Witness for C6 at concrete references: the empty reference, a
parameter-store delegation t resolving to p, and the empty-name
error. -/
theorem c6_resolveSecret_parsing_witness :
    resolveSecret depsDown (secretPrefix ++ []) =
      .error .emptyReference ∧
    resolveSecret depsUp
        (secretPrefix ++ "/aws/reference/secretsmanager/x".toList) =
      (getParameter depsUp.ctx
        (depsUp.paramAttempt
          "/aws/reference/secretsmanager/x".toList)).result ∧
    resolveSecret depsDown (secretPrefix ++ "#key".toList) =
      .error .emptyName :=
  ⟨(c6_resolveSecret_parsing depsDown []).1 rfl,
   (c6_resolveSecret_parsing depsUp
      "/aws/reference/secretsmanager/x".toList).2.1 (by decide),
   (c6_resolveSecret_parsing depsDown "#key".toList).2.2.1
     (by decide) (by decide) (by decide)⟩

/-- The flat mapping of the C7 example, as decoded by the JSON
collaborator. -/
def dbMap : List (GoStr × GoStr) :=
  [("database_url".toList, "postgres://localhost".toList),
   ("api_key".toList, "secret123".toList)]

/-- Concrete oracles for the C7 witness: every secret fetch returns
the payload rawjson, which the JSON collaborator decodes to dbMap. -/
def depsJson : AwsDeps where
  ctx := ctxNever
  loadConfig := none
  secretAttempt := fun _ _ => .ok (some "rawjson".toList)
  paramAttempt := fun _ _ => .ok (some (some "p".toList))
  jsonParse := fun s =>
    if s = "rawjson".toList then .ok dbMap
    else .error "invalid character".toList

/-- C7: once the secret fetch succeeds with the raw string, no key
means the raw string is returned unchanged with no JSON decoding
consulted (the result does not mention jsonParse at all); with a key,
a decode failure yields the NotJSON error naming the secret, a missing
key yields the KeyNotFound error naming both key and secret, and a
present key yields exactly the mapped value. -/
theorem c7_key_extraction (d : AwsDeps) (n raw : GoStr)
    (hfetch : (getSecret d.ctx (d.secretAttempt n)).result = .ok raw) :
    fetchAndExtract d n none = .ok raw ∧
    (∀ k je, d.jsonParse raw = .error je →
       fetchAndExtract d n (some k) = .error (.notJSON n je)) ∧
    (∀ k parsed, d.jsonParse raw = .ok parsed → lookupG k parsed = none →
       fetchAndExtract d n (some k) = .error (.keyNotFound k n)) ∧
    (∀ k parsed v, d.jsonParse raw = .ok parsed →
       lookupG k parsed = some v →
       fetchAndExtract d n (some k) = .ok v) := by
  refine ⟨?_, ?_, ?_, ?_⟩
  · simp [fetchAndExtract, hfetch]
  · intro k je hj
    simp [fetchAndExtract, hfetch, hj]
  · intro k parsed hj hl
    simp [fetchAndExtract, hfetch, hj, hl]
  · intro k parsed v hj hl
    simp [fetchAndExtract, hfetch, hj, hl]

/-- Witness for C7 on the example mapping: key database_url yields
postgres://localhost, the absent key missing yields KeyNotFound, a
payload that does not decode yields NotJSON, and no key returns the
raw payload unchanged. -/
theorem c7_key_extraction_witness :
    fetchAndExtract depsJson "myapp/prod".toList
        (some "database_url".toList) =
      .ok "postgres://localhost".toList ∧
    fetchAndExtract depsJson "myapp/prod".toList
        (some "missing".toList) =
      .error (.keyNotFound "missing".toList "myapp/prod".toList) ∧
    fetchAndExtract depsUp "myapp/prod".toList
        (some "database_url".toList) =
      .error (.notJSON "myapp/prod".toList "invalid character".toList) ∧
    fetchAndExtract depsJson "myapp/prod".toList none =
      .ok "rawjson".toList :=
  ⟨(c7_key_extraction depsJson "myapp/prod".toList "rawjson".toList
      (by decide)).2.2.2 "database_url".toList dbMap
      "postgres://localhost".toList (by decide) (by decide),
   (c7_key_extraction depsJson "myapp/prod".toList "rawjson".toList
      (by decide)).2.2.1 "missing".toList dbMap (by decide) (by decide),
   (c7_key_extraction depsUp "myapp/prod".toList "v".toList
      (by decide)).2.1 "database_url".toList
      "invalid character".toList (by decide),
   (c7_key_extraction depsJson "myapp/prod".toList "rawjson".toList
      (by decide)).1⟩

/-- Retry schedule of getSecret: at most maxRetries attempts, no wait
before attempt 1 and a wait of retryDelay * (i-1) before attempt i, a
cancellation observed at a wait aborting immediately with the context
error and no further attempts, and three transport failures wrapping
the last one with the attempt count. -/
theorem getSecret_retry_schedule (ctx : Ctx) (attS : Nat → SecretAttempt) :
    (getSecret ctx attS).attemptsMade ≤ maxRetries ∧
    (getSecret ctx attS).waits =
      ((List.range (getSecret ctx attS).attemptsMade).drop 1).map
        (fun i => retryDelayMs * i) ∧
    (∀ e, (getSecret ctx attS).result = .error (.cancelled e) →
       ∃ k, 1 ≤ k ∧ k < maxRetries ∧ ctx.doneAt k = some e ∧
         (getSecret ctx attS).attemptsMade = k) ∧
    (∀ f0 f1 f2, attS 0 = .err f0 → attS 1 = .err f1 →
       attS 2 = .err f2 → ctx.doneAt 1 = none → ctx.doneAt 2 = none →
       (getSecret ctx attS).result =
         .error (.fetchFailed maxRetries (some f2))) := by
  rcases h0 : attS 0 with e0 | (_ | s0)
  · rcases hd1 : ctx.doneAt 1 with _ | ce1
    · rcases h1 : attS 1 with e1 | (_ | s1)
      · rcases hd2 : ctx.doneAt 2 with _ | ce2
        · rcases h2 : attS 2 with e2 | (_ | s2)
          · have ht : getSecret ctx attS =
                ⟨.error (.fetchFailed 3 (some e2)), [100, 200], 3⟩ := by
              simp [getSecret, getSecretLoop, maxRetries, retryDelayMs,
                h0, h1, h2, hd1, hd2]
            rw [ht]
            refine ⟨by norm_num [maxRetries], by rfl, ?_, ?_⟩
            · intro e he; simp at he
            · intro f0 f1 f2 _ _ hf2 _ _
              injection hf2 with h
              rw [h, maxRetries]
          · have ht : getSecret ctx attS =
                ⟨.error .binaryNotSupported, [100, 200], 3⟩ := by
              simp [getSecret, getSecretLoop, maxRetries, retryDelayMs,
                h0, h1, h2, hd1, hd2]
            rw [ht]
            refine ⟨by norm_num [maxRetries], by rfl, ?_, ?_⟩
            · intro e he; simp at he
            · intro f0 f1 f2 _ _ hf2 _ _
              exact SecretAttempt.noConfusion hf2
          · have ht : getSecret ctx attS = ⟨.ok s2, [100, 200], 3⟩ := by
              simp [getSecret, getSecretLoop, maxRetries, retryDelayMs,
                h0, h1, h2, hd1, hd2]
            rw [ht]
            refine ⟨by norm_num [maxRetries], by rfl, ?_, ?_⟩
            · intro e he; simp at he
            · intro f0 f1 f2 _ _ hf2 _ _
              exact SecretAttempt.noConfusion hf2
        · have ht : getSecret ctx attS =
              ⟨.error (.cancelled ce2), [100], 2⟩ := by
            simp [getSecret, getSecretLoop, maxRetries, retryDelayMs,
              h0, h1, hd1, hd2]
          rw [ht]
          refine ⟨by norm_num [maxRetries], by rfl, ?_, ?_⟩
          · intro e he
            simp at he
            exact ⟨2, by omega, by norm_num [maxRetries],
              by rw [hd2]; simp [he], rfl⟩
          · intro f0 f1 f2 _ _ _ _ hc2
            exact Option.noConfusion hc2
      · have ht : getSecret ctx attS =
            ⟨.error .binaryNotSupported, [100], 2⟩ := by
          simp [getSecret, getSecretLoop, maxRetries, retryDelayMs,
            h0, h1, hd1]
        rw [ht]
        refine ⟨by norm_num [maxRetries], by rfl, ?_, ?_⟩
        · intro e he; simp at he
        · intro f0 f1 f2 _ hf1 _ _ _
          exact SecretAttempt.noConfusion hf1
      · have ht : getSecret ctx attS = ⟨.ok s1, [100], 2⟩ := by
          simp [getSecret, getSecretLoop, maxRetries, retryDelayMs,
            h0, h1, hd1]
        rw [ht]
        refine ⟨by norm_num [maxRetries], by rfl, ?_, ?_⟩
        · intro e he; simp at he
        · intro f0 f1 f2 _ hf1 _ _ _
          exact SecretAttempt.noConfusion hf1
    · have ht : getSecret ctx attS =
          ⟨.error (.cancelled ce1), [], 1⟩ := by
        simp [getSecret, getSecretLoop, maxRetries, retryDelayMs, h0, hd1]
      rw [ht]
      refine ⟨by norm_num [maxRetries], by rfl, ?_, ?_⟩
      · intro e he
        simp at he
        exact ⟨1, by omega, by norm_num [maxRetries],
          by rw [hd1]; simp [he], rfl⟩
      · intro f0 f1 f2 _ _ _ hc1 _
        exact Option.noConfusion hc1
  · have ht : getSecret ctx attS =
        ⟨.error .binaryNotSupported, [], 1⟩ := by
      simp [getSecret, getSecretLoop, maxRetries, h0]
    rw [ht]
    refine ⟨by norm_num [maxRetries], by rfl, ?_, ?_⟩
    · intro e he; simp at he
    · intro f0 f1 f2 hf0 _ _ _ _
      exact SecretAttempt.noConfusion hf0
  · have ht : getSecret ctx attS = ⟨.ok s0, [], 1⟩ := by
      simp [getSecret, getSecretLoop, maxRetries, h0]
    rw [ht]
    refine ⟨by norm_num [maxRetries], by rfl, ?_, ?_⟩
    · intro e he; simp at he
    · intro f0 f1 f2 hf0 _ _ _ _
      exact SecretAttempt.noConfusion hf0

/-- Retry schedule of getParameter, identical to that of
getSecret. -/
theorem getParameter_retry_schedule (ctx : Ctx) (attP : Nat → ParamAttempt) :
    (getParameter ctx attP).attemptsMade ≤ maxRetries ∧
    (getParameter ctx attP).waits =
      ((List.range (getParameter ctx attP).attemptsMade).drop 1).map
        (fun i => retryDelayMs * i) ∧
    (∀ e, (getParameter ctx attP).result = .error (.cancelled e) →
       ∃ k, 1 ≤ k ∧ k < maxRetries ∧ ctx.doneAt k = some e ∧
         (getParameter ctx attP).attemptsMade = k) ∧
    (∀ f0 f1 f2, attP 0 = .err f0 → attP 1 = .err f1 →
       attP 2 = .err f2 → ctx.doneAt 1 = none → ctx.doneAt 2 = none →
       (getParameter ctx attP).result =
         .error (.fetchFailed maxRetries (some f2))) := by
  rcases h0 : attP 0 with e0 | (_ | (_ | v0))
  · rcases hd1 : ctx.doneAt 1 with _ | ce1
    · rcases h1 : attP 1 with e1 | (_ | (_ | v1))
      · rcases hd2 : ctx.doneAt 2 with _ | ce2
        · rcases h2 : attP 2 with e2 | (_ | (_ | v2))
          · have ht : getParameter ctx attP =
                ⟨.error (.fetchFailed 3 (some e2)), [100, 200], 3⟩ := by
              simp [getParameter, getParameterLoop, maxRetries,
                retryDelayMs, h0, h1, h2, hd1, hd2]
            rw [ht]
            refine ⟨by norm_num [maxRetries], by rfl, ?_, ?_⟩
            · intro e he; simp at he
            · intro f0 f1 f2 _ _ hf2 _ _
              injection hf2 with h
              rw [h, maxRetries]
          · have ht : getParameter ctx attP =
                ⟨.error .paramNoValue, [100, 200], 3⟩ := by
              simp [getParameter, getParameterLoop, maxRetries,
                retryDelayMs, h0, h1, h2, hd1, hd2]
            rw [ht]
            refine ⟨by norm_num [maxRetries], by rfl, ?_, ?_⟩
            · intro e he; simp at he
            · intro f0 f1 f2 _ _ hf2 _ _
              exact ParamAttempt.noConfusion hf2
          · have ht : getParameter ctx attP =
                ⟨.error .paramNoValue, [100, 200], 3⟩ := by
              simp [getParameter, getParameterLoop, maxRetries,
                retryDelayMs, h0, h1, h2, hd1, hd2]
            rw [ht]
            refine ⟨by norm_num [maxRetries], by rfl, ?_, ?_⟩
            · intro e he; simp at he
            · intro f0 f1 f2 _ _ hf2 _ _
              exact ParamAttempt.noConfusion hf2
          · have ht : getParameter ctx attP = ⟨.ok v2, [100, 200], 3⟩ := by
              simp [getParameter, getParameterLoop, maxRetries,
                retryDelayMs, h0, h1, h2, hd1, hd2]
            rw [ht]
            refine ⟨by norm_num [maxRetries], by rfl, ?_, ?_⟩
            · intro e he; simp at he
            · intro f0 f1 f2 _ _ hf2 _ _
              exact ParamAttempt.noConfusion hf2
        · have ht : getParameter ctx attP =
              ⟨.error (.cancelled ce2), [100], 2⟩ := by
            simp [getParameter, getParameterLoop, maxRetries,
              retryDelayMs, h0, h1, hd1, hd2]
          rw [ht]
          refine ⟨by norm_num [maxRetries], by rfl, ?_, ?_⟩
          · intro e he
            simp at he
            exact ⟨2, by omega, by norm_num [maxRetries],
              by rw [hd2]; simp [he], rfl⟩
          · intro f0 f1 f2 _ _ _ _ hc2
            exact Option.noConfusion hc2
      · have ht : getParameter ctx attP =
            ⟨.error .paramNoValue, [100], 2⟩ := by
          simp [getParameter, getParameterLoop, maxRetries,
            retryDelayMs, h0, h1, hd1]
        rw [ht]
        refine ⟨by norm_num [maxRetries], by rfl, ?_, ?_⟩
        · intro e he; simp at he
        · intro f0 f1 f2 _ hf1 _ _ _
          exact ParamAttempt.noConfusion hf1
      · have ht : getParameter ctx attP =
            ⟨.error .paramNoValue, [100], 2⟩ := by
          simp [getParameter, getParameterLoop, maxRetries,
            retryDelayMs, h0, h1, hd1]
        rw [ht]
        refine ⟨by norm_num [maxRetries], by rfl, ?_, ?_⟩
        · intro e he; simp at he
        · intro f0 f1 f2 _ hf1 _ _ _
          exact ParamAttempt.noConfusion hf1
      · have ht : getParameter ctx attP = ⟨.ok v1, [100], 2⟩ := by
          simp [getParameter, getParameterLoop, maxRetries,
            retryDelayMs, h0, h1, hd1]
        rw [ht]
        refine ⟨by norm_num [maxRetries], by rfl, ?_, ?_⟩
        · intro e he; simp at he
        · intro f0 f1 f2 _ hf1 _ _ _
          exact ParamAttempt.noConfusion hf1
    · have ht : getParameter ctx attP =
          ⟨.error (.cancelled ce1), [], 1⟩ := by
        simp [getParameter, getParameterLoop, maxRetries, retryDelayMs,
          h0, hd1]
      rw [ht]
      refine ⟨by norm_num [maxRetries], by rfl, ?_, ?_⟩
      · intro e he
        simp at he
        exact ⟨1, by omega, by norm_num [maxRetries],
          by rw [hd1]; simp [he], rfl⟩
      · intro f0 f1 f2 _ _ _ hc1 _
        exact Option.noConfusion hc1
  · have ht : getParameter ctx attP =
        ⟨.error .paramNoValue, [], 1⟩ := by
      simp [getParameter, getParameterLoop, maxRetries, h0]
    rw [ht]
    refine ⟨by norm_num [maxRetries], by rfl, ?_, ?_⟩
    · intro e he; simp at he
    · intro f0 f1 f2 hf0 _ _ _ _
      exact ParamAttempt.noConfusion hf0
  · have ht : getParameter ctx attP =
        ⟨.error .paramNoValue, [], 1⟩ := by
      simp [getParameter, getParameterLoop, maxRetries, h0]
    rw [ht]
    refine ⟨by norm_num [maxRetries], by rfl, ?_, ?_⟩
    · intro e he; simp at he
    · intro f0 f1 f2 hf0 _ _ _ _
      exact ParamAttempt.noConfusion hf0
  · have ht : getParameter ctx attP = ⟨.ok v0, [], 1⟩ := by
      simp [getParameter, getParameterLoop, maxRetries, h0]
    rw [ht]
    refine ⟨by norm_num [maxRetries], by rfl, ?_, ?_⟩
    · intro e he; simp at he
    · intro f0 f1 f2 hf0 _ _ _ _
      exact ParamAttempt.noConfusion hf0

/-- C8 (as one statement over both loops): at most 3 attempts, waits
exactly 100ms * (i-1) before each attempt i of the ones made (none
before the first), a cancellation during a wait aborting immediately
with the context error and no further attempts, and an all-transport-
failure run returning the wrap of the last failure with the attempt
count. -/
theorem c8_retry_policy (ctx : Ctx) (attS : Nat → SecretAttempt)
    (attP : Nat → ParamAttempt) :
    ((getSecret ctx attS).attemptsMade ≤ maxRetries ∧
     (getSecret ctx attS).waits =
       ((List.range (getSecret ctx attS).attemptsMade).drop 1).map
         (fun i => retryDelayMs * i) ∧
     (∀ e, (getSecret ctx attS).result = .error (.cancelled e) →
        ∃ k, 1 ≤ k ∧ k < maxRetries ∧ ctx.doneAt k = some e ∧
          (getSecret ctx attS).attemptsMade = k) ∧
     (∀ f0 f1 f2, attS 0 = .err f0 → attS 1 = .err f1 →
        attS 2 = .err f2 → ctx.doneAt 1 = none → ctx.doneAt 2 = none →
        (getSecret ctx attS).result =
          .error (.fetchFailed maxRetries (some f2)))) ∧
    ((getParameter ctx attP).attemptsMade ≤ maxRetries ∧
     (getParameter ctx attP).waits =
       ((List.range (getParameter ctx attP).attemptsMade).drop 1).map
         (fun i => retryDelayMs * i) ∧
     (∀ e, (getParameter ctx attP).result = .error (.cancelled e) →
        ∃ k, 1 ≤ k ∧ k < maxRetries ∧ ctx.doneAt k = some e ∧
          (getParameter ctx attP).attemptsMade = k) ∧
     (∀ f0 f1 f2, attP 0 = .err f0 → attP 1 = .err f1 →
        attP 2 = .err f2 → ctx.doneAt 1 = none → ctx.doneAt 2 = none →
        (getParameter ctx attP).result =
          .error (.fetchFailed maxRetries (some f2)))) :=
  ⟨getSecret_retry_schedule ctx attS, getParameter_retry_schedule ctx attP⟩

/-- A context whose cancellation wins the select at the first retry
wait. -/
def ctxDoneAtOne : Ctx :=
  ⟨fun i => if i = 1 then some "context canceled".toList else none⟩

/-- Oracles whose every call fails at the transport level. -/
def attAllFail : Nat → SecretAttempt := fun _ => .err "timeout".toList

/-- Witness for C8 at concrete runs: three transport failures wrap the
last error with the attempt count after waits of 100ms and 200ms, and
a context cancelled at the first wait aborts after one attempt. -/
theorem c8_retry_policy_witness :
    (getSecret ctxNever attAllFail).result =
      .error (.fetchFailed maxRetries (some "timeout".toList)) ∧
    (getSecret ctxNever attAllFail).waits =
      ((List.range (getSecret ctxNever attAllFail).attemptsMade).drop
        1).map (fun i => retryDelayMs * i) ∧
    (∃ k, 1 ≤ k ∧ k < maxRetries ∧
       ctxDoneAtOne.doneAt k = some "context canceled".toList ∧
       (getSecret ctxDoneAtOne attAllFail).attemptsMade = k) :=
  ⟨(c8_retry_policy ctxNever attAllFail
      (fun _ => .err "timeout".toList)).1.2.2.2
      "timeout".toList "timeout".toList "timeout".toList
      rfl rfl rfl rfl rfl,
   (c8_retry_policy ctxNever attAllFail
      (fun _ => .err "timeout".toList)).1.2.1,
   (c8_retry_policy ctxDoneAtOne attAllFail
      (fun _ => .err "timeout".toList)).1.2.2.1
      "context canceled".toList (by decide)⟩

/-- Concrete run refuting C4: the first attempt succeeds at the
transport level with a nil SecretString, every later attempt would
return a usable value. -/
def attNilFirst : Nat → SecretAttempt := fun i =>
  if i = 0 then .ok none else .ok (some "good".toList)

/-- Counterexample to C4 as stated: a first attempt carrying no usable
value (nil SecretString) makes getSecret return the binary-secrets
error after exactly one attempt, even though the very next attempt
would have returned a value — the loop terminates immediately instead
of retrying. -/
theorem c4_counterexample :
    (getSecret ctxNever attNilFirst).result =
      .error .binaryNotSupported ∧
    (getSecret ctxNever attNilFirst).attemptsMade = 1 ∧
    attNilFirst 1 = .ok (some "good".toList) := by decide

/-- C4 amended: in both loops, an attempt that succeeds at the
transport level but carries no usable value (nil SecretString; nil
Parameter or nil Parameter.Value) terminates the loop immediately with
a non-retried error (binary secrets not supported, or parameter has no
value): whichever attempt index k first returns such a response ends
the run at exactly k + 1 attempts. -/
theorem c4_nil_payload_fails_immediately :
    (∀ (ctx : Ctx) (att : Nat → SecretAttempt) (k : Nat),
       k < maxRetries → (∀ j, j < k → ∃ e, att j = .err e) →
       (∀ j, 1 ≤ j → j ≤ k → ctx.doneAt j = none) →
       att k = .ok none →
       (getSecret ctx att).result = .error .binaryNotSupported ∧
       (getSecret ctx att).attemptsMade = k + 1) ∧
    (∀ (ctx : Ctx) (att : Nat → ParamAttempt) (k : Nat),
       k < maxRetries → (∀ j, j < k → ∃ e, att j = .err e) →
       (∀ j, 1 ≤ j → j ≤ k → ctx.doneAt j = none) →
       (att k = .ok none ∨ att k = .ok (some none)) →
       (getParameter ctx att).result = .error .paramNoValue ∧
       (getParameter ctx att).attemptsMade = k + 1) := by
  constructor
  · intro ctx att k hk hfail hctx hnil
    rw [maxRetries] at hk
    interval_cases k
    · simp [getSecret, getSecretLoop, maxRetries, hnil]
    · obtain ⟨e0, h0⟩ := hfail 0 (by omega)
      have hd1 := hctx 1 (by omega) (by omega)
      simp [getSecret, getSecretLoop, maxRetries, retryDelayMs,
        h0, hd1, hnil]
    · obtain ⟨e0, h0⟩ := hfail 0 (by omega)
      obtain ⟨e1, h1⟩ := hfail 1 (by omega)
      have hd1 := hctx 1 (by omega) (by omega)
      have hd2 := hctx 2 (by omega) (by omega)
      simp [getSecret, getSecretLoop, maxRetries, retryDelayMs,
        h0, h1, hd1, hd2, hnil]
  · intro ctx att k hk hfail hctx hnil
    rw [maxRetries] at hk
    interval_cases k <;> rcases hnil with hnil | hnil
    · simp [getParameter, getParameterLoop, maxRetries, hnil]
    · simp [getParameter, getParameterLoop, maxRetries, hnil]
    · obtain ⟨e0, h0⟩ := hfail 0 (by omega)
      have hd1 := hctx 1 (by omega) (by omega)
      simp [getParameter, getParameterLoop, maxRetries, retryDelayMs,
        h0, hd1, hnil]
    · obtain ⟨e0, h0⟩ := hfail 0 (by omega)
      have hd1 := hctx 1 (by omega) (by omega)
      simp [getParameter, getParameterLoop, maxRetries, retryDelayMs,
        h0, hd1, hnil]
    · obtain ⟨e0, h0⟩ := hfail 0 (by omega)
      obtain ⟨e1, h1⟩ := hfail 1 (by omega)
      have hd1 := hctx 1 (by omega) (by omega)
      have hd2 := hctx 2 (by omega) (by omega)
      simp [getParameter, getParameterLoop, maxRetries, retryDelayMs,
        h0, h1, hd1, hd2, hnil]
    · obtain ⟨e0, h0⟩ := hfail 0 (by omega)
      obtain ⟨e1, h1⟩ := hfail 1 (by omega)
      have hd1 := hctx 1 (by omega) (by omega)
      have hd2 := hctx 2 (by omega) (by omega)
      simp [getParameter, getParameterLoop, maxRetries, retryDelayMs,
        h0, h1, hd1, hd2, hnil]

/-- Oracles for the C4 amended witness: a transport failure, then a
response with nil SecretString. -/
def attNilSecond : Nat → SecretAttempt := fun i =>
  if i = 0 then .err "down".toList else .ok none

/-- Witness for C4 amended: with a failure then a nil payload, the
secret loop stops after 2 attempts; a parameter response with nil
Value stops that loop after 1 attempt. -/
theorem c4_nil_payload_fails_immediately_witness :
    ((getSecret ctxNever attNilSecond).result =
        .error .binaryNotSupported ∧
      (getSecret ctxNever attNilSecond).attemptsMade = 2) ∧
    ((getParameter ctxNever (fun _ => .ok (some none))).result =
        .error .paramNoValue ∧
      (getParameter ctxNever
        (fun _ => .ok (some none))).attemptsMade = 1) :=
  ⟨c4_nil_payload_fails_immediately.1 ctxNever attNilSecond 1
      (by decide)
      (by
        intro j hj
        have hj0 : j = 0 := by omega
        subst hj0
        exact ⟨"down".toList, rfl⟩)
      (fun _ _ _ => rfl) rfl,
   c4_nil_payload_fails_immediately.2 ctxNever
      (fun _ => .ok (some none)) 0 (by decide)
      (by intro j hj; omega)
      (by intro j h1 h0; omega)
      (Or.inr rfl)⟩

end AwsInit
